import Mathlib

/-!
Verification of the test-execution engine of the network-devices
power-consumption measurement tool (Go sources under internal/loadgen,
internal/runner and the HTTP server).

Modelling conventions:
* Go float64 values are modelled by exact rationals (ℚ).
* Go time.Duration values are modelled by Int (nanoseconds); the Go
  conversion time.Duration(float64 x) truncates, which for the
  non-negative quantities appearing here is the floor.
* Go maps keyed by interface name are modelled by association lists.
* Stateful code is modelled by explicit state passing; the concurrent
  start/stop/run protocol of the HTTP server is modelled as a small-step
  transition system over interleaved atomic actions (each action is a
  region the Go code executes under a mutex).
-/

/-- Go source: loadgen.InterfaceConfig.  Per-interface load settings. -/
structure InterfaceConfig where
  name : String
  workers : Int
  targetThroughput : ℚ
  rampSteps : Int
  preTime : Int
  rampDuration : Int
deriving DecidableEq

/-- Go source: loadgen.Config (target address, protocol and the ordered
interface list). -/
structure LoadgenConfig where
  targetIP : String
  targetPort : Int
  protocol : String
  targetMAC : String
  packetSize : Int
  interfaceConfigs : List InterfaceConfig
deriving DecidableEq

/-- Go source: loadgen.InterfaceThroughput.  Per-interface meter state. -/
structure InterfaceThroughput where
  bytesSent : ℚ
  lastUpdate : Int
  throughput : ℚ
  targetThroughput : ℚ
  workers : Int
deriving DecidableEq

/-- Go source: loadgen.NetworkLoadGenerator (the fields the verified
operations touch). -/
structure NetworkLoadGenerator where
  bytesSent : ℚ
  lastUpdate : Int
  throughput : ℚ
  targetThroughput : ℚ
  numWorkers : Int
  interfaceThroughputs : List (String × InterfaceThroughput)
deriving DecidableEq

/-- The name-defaulting performed throughout loadgen.go: an empty
interface name is keyed as the sentinel "default". -/
def canonName (s : String) : String := if s = "" then "default" else s

/-- Lookup in the interfaceThroughputs map (first match, as Go map keys
are unique). -/
def lookupIface : List (String × InterfaceThroughput) → String → Option InterfaceThroughput
  | [], _ => none
  | (k, v) :: rest, n => if k = n then some v else lookupIface rest n

/-- Helper for SetInterfaceTargetThroughput: update the target of the
entry with the given key, leaving everything else untouched. -/
def setIfaceTarget : List (String × InterfaceThroughput) → String → ℚ → List (String × InterfaceThroughput)
  | [], _, _ => []
  | (k, v) :: rest, n, mbps =>
      if k = n then (k, { v with targetThroughput := mbps }) :: rest
      else (k, v) :: setIfaceTarget rest n mbps

/-- Go source: (*NetworkLoadGenerator).SetInterfaceTargetThroughput.
After defaulting the empty name, a registered interface has its
targetThroughput field overwritten; an unregistered name only produces a
warning log and changes nothing. -/
def SetInterfaceTargetThroughput (g : NetworkLoadGenerator) (ifaceName : String) (mbps : ℚ) :
    NetworkLoadGenerator :=
  let key := canonName ifaceName
  match lookupIface g.interfaceThroughputs key with
  | none => g
  | some _ => { g with interfaceThroughputs := setIfaceTarget g.interfaceThroughputs key mbps }

/-- Go source: (*NetworkLoadGenerator).getWorkerDelayForInterface.
Per-packet pacing delay in nanoseconds for one worker of the named
interface.  Durations are truncated to whole nanoseconds at each Go
time.Duration conversion. -/
def getWorkerDelayForInterface (g : NetworkLoadGenerator) (packetSize : Int) (ifaceName : String) : Int :=
  match lookupIface g.interfaceThroughputs (canonName ifaceName) with
  | none => 0
  | some it =>
    let target := it.targetThroughput
    let workers := it.workers
    if target ≤ 0 ∨ workers ≤ 0 then 0
    else
      let bytesPerSecond : ℚ := target * 1000000 / 8 / (workers : ℚ)
      if bytesPerSecond ≤ 0 then 0
      else
        let packetsPerSecond : ℚ := bytesPerSecond / (packetSize : ℚ)
        if packetsPerSecond ≤ 0 then 1000000000
        else
          let delay : Int := ⌊(1000000000 : ℚ) / packetsPerSecond⌋
          if delay < 10000 then 0
          else
            let compensatedDelay : Int := ⌊(delay : ℚ) * (95 / 100)⌋
            if compensatedDelay < 1000 then 0
            else compensatedDelay

/-- The rate computation as the specification words it: rawDelay is one
second divided by ((target × 125000 / workers) / packetSize); the result
is 0 for a non-positive target or worker count, 0 below the 10 µs floor,
and 0.95 × rawDelay otherwise. -/
def claimedDelayForInterface (target : ℚ) (workers packetSize : Int) : Int :=
  if target ≤ 0 ∨ workers ≤ 0 then 0
  else
    let rawDelay : Int := ⌊(1000000000 : ℚ) / ((target * 125000 / (workers : ℚ)) / (packetSize : ℚ))⌋
    if rawDelay < 10000 then 0 else ⌊(rawDelay : ℚ) * (95 / 100)⌋

/-- Go source: sleep_windows.go, toleranceNs constant (~1 ms). -/
def toleranceNs : Int := 1020000

/-- Go source: sleep_windows.go, periodNs constant (1 ms scheduler period). -/
def periodNs : Int := 1000000

/-- Go source: sleep_windows.go, maxTicksNs = periodNs * 95 / 10 (9.5 ms
in nanoseconds, per the comment "9.5ms max per sleep to avoid quirk"). -/
def maxTicksNs : Int := periodNs * 95 / 10

/-- Go source: one iteration of the timer-arming loop of
preciseSleepWindows.  Given the remaining nanoseconds until the sleep
target, returns the tick count (100 ns units) passed to
SetWaitableTimerEx, or none when the loop breaks instead of arming. -/
def armTicksWindows (remaining : Int) : Option Int :=
  if remaining ≤ toleranceNs then none
  else
    let ticks := (remaining - toleranceNs) / 100
    if ticks ≤ 0 then none
    else if ticks > maxTicksNs * 10 then some (maxTicksNs * 10)
    else some ticks

/-- Go source: runner.Phase. -/
inductive Phase
  | pre
  | load
  | post
deriving DecidableEq

/-- Go source: runner.EventType. -/
inductive EventType
  | phaseChange
  | rampStep
  | ifaceStart
  | ifaceStop
  | custom
deriving DecidableEq

/-- Go source: runner.Event (etype stands for the Go field Type). -/
structure Event where
  etype : EventType
  message : String
  timestamp : Int
deriving DecidableEq

/-- Go source: runner.DataPoint. -/
structure DataPoint where
  timestamp : Int
  powerMW : ℚ
  throughputMbps : ℚ
  throughputByInterface : List (String × ℚ)
  targetThroughputByInterface : List (String × ℚ)
  phase : Phase
  events : List Event
deriving DecidableEq

/-- Snapshot of the three LoadGenerator readouts the sampling tick takes
(GetThroughput, GetThroughputByInterface,
GetTargetThroughputByInterface). -/
structure LoadGenReadout where
  throughput : ℚ
  throughputByInterface : List (String × ℚ)
  targetThroughputByInterface : List (String × ℚ)
deriving DecidableEq

/-- Outcome of one sampling tick in collectData: either the tick is
skipped (power read error: the loop logs and continues) or a data point
is appended to the result and offered to the update channel. -/
inductive TickOutcome
  | skipped
  | emitted (dp : DataPoint)
deriving DecidableEq

/-- Go source: the ticker case of the collectData closure inside
runner.RunTest.  Input: the phase, the config's LoadEnabled flag, the
load generator readouts, the tick time, the power read result, the data
points accumulated so far and the pending events buffer.  Output: the
new data point list, the new pending buffer (swapped for empty on
emission) and the tick outcome. -/
def collectTick (phase : Phase) (loadEnabled : Bool) (lg : LoadGenReadout)
    (t : Int) (powerResult : Except String ℚ)
    (points : List DataPoint) (pending : List Event) :
    List DataPoint × List Event × TickOutcome :=
  match powerResult with
  | .error _ => (points, pending, .skipped)
  | .ok power =>
    let onLoad : Bool := decide (phase = Phase.load) && loadEnabled
    let throughput : ℚ := if onLoad then lg.throughput else 0
    let tbi := if onLoad then lg.throughputByInterface else []
    let tgbi := if onLoad then lg.targetThroughputByInterface else []
    let dp : DataPoint :=
      { timestamp := t, powerMW := power, throughputMbps := throughput,
        throughputByInterface := tbi, targetThroughputByInterface := tgbi,
        phase := phase, events := pending }
    (points ++ [dp], [], .emitted dp)

/-- Go source: the runner's marker state: the testActive flag and the
event channel (none models a nil channel; the list models the buffered
channel contents, capacity 100). -/
structure RunnerState where
  testActive : Bool
  eventChan : Option (List Event)
deriving DecidableEq

/-- Capacity of the runner's buffered event channel. -/
def eventChanCapacity : Nat := 100

/-- Go source: (*Runner).IsTestActive. -/
def IsTestActive (r : RunnerState) : Bool := r.testActive

/-- Go source: (*Runner).AddCustomMarker.  Fails when no test is active
or the channel is nil; otherwise performs a non-blocking send of a
custom event, which fails exactly when the buffer is full. -/
def AddCustomMarker (r : RunnerState) (message : String) (now : Int) : Bool × RunnerState :=
  if r.testActive = false then (false, r)
  else
    match r.eventChan with
    | none => (false, r)
    | some buf =>
      if buf.length < eventChanCapacity then
        (true, { r with eventChan := some (buf ++ [⟨EventType.custom, message, now⟩]) })
      else (false, r)

/-- Go source: the HTTP server's handleAddMarker: rejects an empty
message, then rejects when no test is active, then delegates to
AddCustomMarker. -/
def handleAddMarker (r : RunnerState) (message : String) (now : Int) : Bool × RunnerState :=
  if message = "" then (false, r)
  else if IsTestActive r = false then (false, r)
  else AddCustomMarker r message now

/-- Go source: runner.TestConfig (the fields the verified operations
touch). -/
structure TestConfig where
  duration : Int
  interval : Int
  preTestTime : Int
  postTestTime : Int
  loadEnabled : Bool
  loadConfig : LoadgenConfig
deriving DecidableEq

/-- Go source: the Load-phase setup in runner.RunTest: when load is
enabled and a target address is present, one interface-supervisor
goroutine (which later calls loadGen.Start with a single-interface
config) is spawned per entry of loadConfig.InterfaceConfigs; otherwise
none are. -/
def loadPhaseInterfaceStarts (config : TestConfig) : List InterfaceConfig :=
  if config.loadEnabled = true ∧ (config.loadConfig.targetIP ≠ "" ∨ config.loadConfig.targetMAC ≠ "")
  then config.loadConfig.interfaceConfigs
  else []

/-- Go source: the defaulting at the top of
(*NetworkLoadGenerator).Start: an empty interface list is replaced by a
single implicit OS-routed interface with 10 workers, unlimited target
and no ramping. -/
def effectiveInterfaceConfigs (ics : List InterfaceConfig) : List InterfaceConfig :=
  if ics = [] then [{ name := "", workers := 10, targetThroughput := 0,
                      rampSteps := 0, preTime := 0, rampDuration := 0 }]
  else ics

/-- Go source: initInterfaceThroughput: the initial published target is
0 when ramping is configured (RampSteps > 0 and TargetThroughput > 0)
and the configured target otherwise. -/
def initialInterfaceTarget (ic : InterfaceConfig) : ℚ :=
  if 0 < ic.rampSteps ∧ 0 < ic.targetThroughput then 0 else ic.targetThroughput

/-- Go source: runInterfaceRamping: the target published at ramp step
k (stepSize × k with stepSize = TargetThroughput / RampSteps). -/
def rampStepTarget (ic : InterfaceConfig) (step : Nat) : ℚ :=
  ic.targetThroughput / (ic.rampSteps : ℚ) * (step : ℚ)

/-- The sequence of values SetInterfaceTargetThroughput publishes for a
ramped interface over one run: the initial registration value followed
by the value of each ramp step 1..RampSteps (runInterfaceRamping
publishes nothing after the last step). -/
def publishedTargetSeq (ic : InterfaceConfig) : List ℚ :=
  initialInterfaceTarget ic ::
    (List.range ic.rampSteps.toNat).map (fun k => rampStepTarget ic (k + 1))

/-- Action a worker takes after one write attempt: exit the worker
goroutine, sleep a backoff (nanoseconds) and continue, or continue
immediately. -/
inductive WorkerAction
  | exitWorker
  | backoff (ns : Int)
  | proceed
deriving DecidableEq

/-- Go source: the write error handling of runUDPWorkerWithConfig.  On
success the worker continues; on error with the context cancelled it
exits; otherwise it logs, sleeps 100 ms and continues.  The UDP worker
keeps no error counter. -/
def udpWriteStep (ctxCancelled : Bool) (writeOk : Bool) : WorkerAction :=
  if writeOk then .proceed
  else if ctxCancelled then .exitWorker
  else .backoff 100000000

/-- Go source: the write error handling of runTCPWorkerWithConfig.  On
any write error the worker returns (both the cancelled and the
non-cancelled branch exit; there is no reconnect within a run). -/
def tcpWriteStep (ctxCancelled : Bool) (writeOk : Bool) : WorkerAction :=
  if writeOk then .proceed
  else if ctxCancelled then .exitWorker
  else .exitWorker

/-- Go source: the write error handling of layer2Worker (maxErrors =
100, 10 µs backoff).  Takes the consecutive-error counter and returns
the action with the updated counter; success resets the counter. -/
def l2WriteStep (errorCount : Nat) (writeOk : Bool) : WorkerAction × Nat :=
  if writeOk then (.proceed, 0)
  else
    let e := errorCount + 1
    if 100 < e then (.exitWorker, e) else (.backoff 10000, e)

/-- Whether a UDP worker with a live context is still running after n
consecutive write errors (it is, for every n: udpWriteStep never exits
while the context is live). -/
def udpWorkerSurvivesErrors : Nat → Bool
  | 0 => true
  | n + 1 =>
    if udpWriteStep false false = WorkerAction.exitWorker then false
    else udpWorkerSurvivesErrors n

/-- Program counter of one spawned test goroutine: after handleStart
accepts, the goroutine is spawned (entering), enters RunTest which sets
testActive (running), RunTest returns and its defer clears testActive
(cleanedUp), then the goroutine's outer defer clears the server's cancel
handle and broadcasts the terminal done signal (finished). -/
inductive RunPhase
  | entering
  | running
  | cleanedUp
  | finished
deriving DecidableEq

/-- One spawned test goroutine: its program counter, the token of the
cancel context its start created, and whether that context has been
cancelled. -/
structure RunGoroutine where
  phase : RunPhase
  token : Nat
  cancelled : Bool
deriving DecidableEq

/-- Shared state of the HTTP server and the runner: the server's cancel
handle s.cancel (none = nil, some t = the cancel function of the run
with token t), a fresh-token counter, the runner's testActive flag, the
spawned test goroutines, and the number of terminal done signals
broadcast so far. -/
structure ServerState where
  cancelSet : Option Nat
  nextToken : Nat
  testActive : Bool
  runs : List RunGoroutine
  doneSignals : Nat
deriving DecidableEq

/-- Atomic interleaved actions.  startReq and stopReq are the bodies of
handleStart's and handleStop's mutex-guarded critical sections; the run
actions are the mutex-guarded state updates of the goroutine with the
given token (enterRun: RunTest entry sets testActive; finishRun: RunTest
returns, its defer clears testActive; exitRun: the outer defer clears
s.cancel and broadcasts done). -/
inductive ServerAct
  | startReq
  | stopReq
  | enterRun (t : Nat)
  | finishRun (t : Nat)
  | exitRun (t : Nat)
deriving DecidableEq

/-- Whether some goroutine with token t is at phase p (guards the run
actions). -/
def hasRunAt (s : ServerState) (t : Nat) (p : RunPhase) : Bool :=
  s.runs.any fun r => decide (r.token = t) && decide (r.phase = p)

/-- Advance the goroutine with token t from phase p to phase q. -/
def advanceRun (runs : List RunGoroutine) (t : Nat) (p q : RunPhase) : List RunGoroutine :=
  runs.map fun r => if r.token = t ∧ r.phase = p then { r with phase := q } else r

/-- One atomic step of the start/stop/run protocol.  The second
component is handleStart's observable reply: some true = "Test started"
(accepted), some false = 409 "Test already running" (rejected), none for
the other actions. -/
def serverStep (s : ServerState) (a : ServerAct) : ServerState × Option Bool :=
  match a with
  | .startReq =>
    match s.cancelSet with
    | some _ => (s, some false)
    | none =>
      ({ s with cancelSet := some s.nextToken,
                nextToken := s.nextToken + 1,
                runs := s.runs ++ [{ phase := RunPhase.entering, token := s.nextToken, cancelled := false }] },
       some true)
  | .stopReq =>
    match s.cancelSet with
    | none => (s, none)
    | some t =>
      ({ s with cancelSet := none,
                runs := s.runs.map fun r => if r.token = t then { r with cancelled := true } else r },
       none)
  | .enterRun t =>
    if hasRunAt s t RunPhase.entering then
      ({ s with runs := advanceRun s.runs t RunPhase.entering RunPhase.running,
                testActive := true }, none)
    else (s, none)
  | .finishRun t =>
    if hasRunAt s t RunPhase.running then
      ({ s with runs := advanceRun s.runs t RunPhase.running RunPhase.cleanedUp,
                testActive := false }, none)
    else (s, none)
  | .exitRun t =>
    if hasRunAt s t RunPhase.cleanedUp then
      ({ s with runs := advanceRun s.runs t RunPhase.cleanedUp RunPhase.finished,
                cancelSet := none,
                doneSignals := s.doneSignals + 1 }, none)
    else (s, none)

/-- Run a sequence of atomic actions from a state. -/
def serverExec (s : ServerState) (tr : List ServerAct) : ServerState :=
  tr.foldl (fun st a => (serverStep st a).1) s

/-- The state before any request: no cancel handle, no test active, no
goroutines. -/
def initialServerState : ServerState :=
  { cancelSet := none, nextToken := 0, testActive := false, runs := [], doneSignals := 0 }

/-- Number of goroutines currently inside RunTest (tests running at
once). -/
def runningCount (s : ServerState) : Nat :=
  (s.runs.filter fun r => decide (r.phase = RunPhase.running)).length

/-- A goroutine that has not yet reached its outer defer. -/
def liveRun (r : RunGoroutine) : Bool := !(decide (r.phase = RunPhase.finished))

/-- Every goroutine in the list has fully finished. -/
def allFinished (l : List RunGoroutine) : Prop := ∀ r ∈ l, r.phase = RunPhase.finished

/-- Inductive invariant of stop-free executions: either every spawned
goroutine has finished, the cancel handle is clear and testActive is
false; or exactly the last spawned goroutine is still live, the cancel
handle holds its token, and testActive holds exactly while it is inside
RunTest. -/
def ServerInv (s : ServerState) : Prop :=
  (allFinished s.runs ∧ s.cancelSet = none ∧ s.testActive = false) ∨
  (∃ l last, s.runs = l ++ [last] ∧ allFinished l ∧ last.phase ≠ RunPhase.finished ∧
     s.cancelSet = some last.token ∧ (s.testActive = true ↔ last.phase = RunPhase.running))

/-- Concrete meter for evaluating the rate computation: 100 Mbps target,
10 workers. -/
def itSample : InterfaceThroughput :=
  { bytesSent := 0, lastUpdate := 0, throughput := 0, targetThroughput := 100, workers := 10 }

/-- Concrete generator with the single registered interface "eth0". -/
def genSample : NetworkLoadGenerator :=
  { bytesSent := 0, lastUpdate := 0, throughput := 0, targetThroughput := 100,
    numWorkers := 10, interfaceThroughputs := [("eth0", itSample)] }

/-- Concrete ramped interface: 8 workers, 400 Mbps target, 4 ramp steps
over 8 s. -/
def icRampSample : InterfaceConfig :=
  { name := "eth0", workers := 8, targetThroughput := 400, rampSteps := 4,
    preTime := 0, rampDuration := 8000000000 }

/-- Concrete load generator readout used to evaluate a sampling tick. -/
def lgSample : LoadGenReadout :=
  { throughput := 3, throughputByInterface := [("eth0", 3)],
    targetThroughputByInterface := [("eth0", 5)] }

/-- A load-enabled test config whose interface list is empty. -/
def emptyIfaceLoadConfig : TestConfig :=
  { duration := 5000000000, interval := 1000000000, preTestTime := 0, postTestTime := 0,
    loadEnabled := true,
    loadConfig := { targetIP := "10.0.0.1", targetPort := 9, protocol := "udp",
                    targetMAC := "", packetSize := 1400, interfaceConfigs := [] } }

theorem udpWorkerSurvivesErrors_true (n : Nat) : udpWorkerSurvivesErrors n = true := by
  induction n with
  | zero => rfl
  | succ n ih => simp only [udpWorkerSurvivesErrors, udpWriteStep]; simpa using ih

/-- C8: on a sampling tick where the power source returns an error, no
DataPoint is appended to the result, none is offered to the telemetry
sink, the pending-event buffer is untouched and the loop continues
(skipped outcome). -/
theorem power_error_skips_tick (phase : Phase) (loadEnabled : Bool) (lg : LoadGenReadout)
    (t : Int) (e : String) (points : List DataPoint) (pending : List Event) :
    collectTick phase loadEnabled lg t (Except.error e) points pending
      = (points, pending, TickOutcome.skipped) := rfl

/-- C7: every DataPoint emitted during the pre or post phase has an
empty throughputByInterface map, an empty targetThroughputByInterface
map and zero total throughput. -/
theorem baseline_phase_no_load (phase : Phase) (loadEnabled : Bool) (lg : LoadGenReadout)
    (t : Int) (power : ℚ) (points : List DataPoint) (pending : List Event)
    (h : phase = Phase.pre ∨ phase = Phase.post) :
    ∃ dp, collectTick phase loadEnabled lg t (Except.ok power) points pending
        = (points ++ [dp], [], TickOutcome.emitted dp) ∧
      dp.throughputByInterface = [] ∧ dp.targetThroughputByInterface = [] ∧
      dp.throughputMbps = 0 ∧ dp.phase = phase := by
  rcases h with h | h <;> subst h <;> exact ⟨_, rfl, rfl, rfl, rfl, rfl⟩

/-- C7 witness: a concrete pre-phase tick with load enabled. -/
theorem baseline_phase_no_load_witness :
    ∃ dp, collectTick Phase.pre true lgSample 7 (Except.ok 1500) [] []
        = ([] ++ [dp], [], TickOutcome.emitted dp) ∧
      dp.throughputByInterface = [] ∧ dp.targetThroughputByInterface = [] ∧
      dp.throughputMbps = 0 ∧ dp.phase = Phase.pre :=
  baseline_phase_no_load Phase.pre true lgSample 7 1500 [] [] (Or.inl rfl)

/-- C9: handleAddMarker accepts exactly when a test is active, the
message is non-empty and the bounded event channel has room; acceptance
enqueues the custom event at the back of the channel buffer, and an
inactive test or empty message is rejected with the state unchanged. -/
theorem addMarker_accept_policy (r : RunnerState) (message : String) (now : Int) :
    ((handleAddMarker r message now).1 = true →
      r.testActive = true ∧ message ≠ "" ∧
      ∃ buf, r.eventChan = some buf ∧
        (handleAddMarker r message now).2.eventChan
          = some (buf ++ [{ etype := EventType.custom, message := message, timestamp := now }])) ∧
    ((r.testActive = false ∨ message = "") →
      (handleAddMarker r message now).1 = false ∧ (handleAddMarker r message now).2 = r) := by
  constructor
  · intro hacc
    by_cases hm : message = ""
    · simp [handleAddMarker, hm] at hacc
    · by_cases ha : r.testActive = true
      · cases hch : r.eventChan with
        | none =>
          simp [handleAddMarker, IsTestActive, AddCustomMarker, hm, ha, hch] at hacc
        | some buf =>
          by_cases hlen : buf.length < eventChanCapacity
          · refine ⟨ha, hm, buf, rfl, ?_⟩
            simp [handleAddMarker, IsTestActive, AddCustomMarker, hm, ha, hch, hlen]
          · simp [handleAddMarker, IsTestActive, AddCustomMarker, hm, ha, hch, hlen] at hacc
      · have ha' : r.testActive = false := by
          cases hb : r.testActive
          · rfl
          · exact absurd hb ha
        simp [handleAddMarker, IsTestActive, hm, ha'] at hacc
  · intro hrej
    rcases hrej with ha | hm
    · by_cases hm : message = ""
      · simp [handleAddMarker, hm]
      · simp [handleAddMarker, IsTestActive, hm, ha]
    · simp [handleAddMarker, hm]

/-- C9 witness: a concrete active runner accepts "checkpoint-7" and the
event lands at the back of the channel buffer. -/
theorem addMarker_accept_policy_witness :
    (RunnerState.mk true (some [])).testActive = true ∧ "checkpoint-7" ≠ "" ∧
    ∃ buf, (RunnerState.mk true (some [])).eventChan = some buf ∧
      (handleAddMarker (RunnerState.mk true (some [])) "checkpoint-7" 5).2.eventChan
        = some (buf ++ [{ etype := EventType.custom, message := "checkpoint-7", timestamp := 5 }]) :=
  (addMarker_accept_policy (RunnerState.mk true (some [])) "checkpoint-7" 5).1 (by decide)

/-- C3: evaluating the timer-arming computation at the failing input.  A
requested sleep of 1 s arms the waitable timer with 9 989 800 ticks of
100 ns (≈0.999 s) in its first loop iteration: the cap actually applied
is maxTicksNs * 10 = 95 000 000 ticks (9.5 s), one thousand times the
≈95 000 ticks (9.5 ms) the claim and the code's own comment state. -/
theorem arming_cap_code_bug :
    armTicksWindows 1000000000 = some 9989800 ∧
    maxTicksNs * 10 = 95000000 ∧ 95000 < 9989800 := by decide

/-- C4 counterexample: a load-enabled config with a target IP and an
empty interfaceConfigs sequence spawns zero interface supervisors in
RunTest, so loadGen.Start is never invoked and no load generation runs
during the Load phase. -/
theorem empty_interfaces_no_load_cex :
    emptyIfaceLoadConfig.loadEnabled = true ∧
    emptyIfaceLoadConfig.loadConfig.targetIP ≠ "" ∧
    emptyIfaceLoadConfig.loadConfig.interfaceConfigs = [] ∧
    loadPhaseInterfaceStarts emptyIfaceLoadConfig = [] := by
  refine ⟨rfl, by decide, rfl, ?_⟩
  simp [loadPhaseInterfaceStarts, emptyIfaceLoadConfig]

/-- C4 amended: loadgen.Start itself substitutes the single implicit
OS-routed interface (empty name, 10 workers, unlimited target, no
ramping) when handed an empty interface list, but the runner spawns one
load goroutine per configured interface, so a test config with an empty
interfaceConfigs sequence starts no load generation at all. -/
theorem empty_interfaces_defaulting :
    effectiveInterfaceConfigs []
      = [{ name := "", workers := 10, targetThroughput := 0,
           rampSteps := 0, preTime := 0, rampDuration := 0 }] ∧
    ∀ c : TestConfig, c.loadConfig.interfaceConfigs = [] → loadPhaseInterfaceStarts c = [] := by
  refine ⟨rfl, ?_⟩
  intro c hc
  unfold loadPhaseInterfaceStarts
  split
  · exact hc
  · rfl

/-- C4 witness: the amended statement evaluated on the concrete empty
config. -/
theorem empty_interfaces_defaulting_witness :
    emptyIfaceLoadConfig.loadConfig.interfaceConfigs = [] ∧
    loadPhaseInterfaceStarts emptyIfaceLoadConfig = [] :=
  ⟨rfl, empty_interfaces_defaulting.2 emptyIfaceLoadConfig rfl⟩

/-- C5 counterexample: after 1000 consecutive write errors with a live
context, the UDP worker has not exited — it keeps backing off 100 ms and
retrying, because the UDP loop has no consecutive-error counter at all;
this contradicts the claim that a UDP worker exits once its error
counter exceeds about 100. -/
theorem udp_worker_unbounded_retries_cex :
    udpWorkerSurvivesErrors 1000 = true ∧
    udpWriteStep false false = WorkerAction.backoff 100000000 ∧
    udpWriteStep false false ≠ WorkerAction.exitWorker := by
  refine ⟨udpWorkerSurvivesErrors_true 1000, rfl, by decide⟩

/-- C5 amended: on a write error with the context live, the TCP worker
exits immediately (no reconnect); the layer-2 worker increments its
consecutive-error counter, exits as soon as it exceeds 100 and otherwise
backs off 10 µs, with a successful write resetting the counter to 0; the
UDP worker backs off 100 ms and retries indefinitely, with no error
counter bounding it. -/
theorem worker_error_policy (c : Bool) (n : Nat) :
    tcpWriteStep c false = WorkerAction.exitWorker ∧
    (l2WriteStep n false).1
      = (if 100 < n + 1 then WorkerAction.exitWorker else WorkerAction.backoff 10000) ∧
    (l2WriteStep n false).2 = n + 1 ∧
    l2WriteStep n true = (WorkerAction.proceed, 0) ∧
    udpWriteStep false false = WorkerAction.backoff 100000000 ∧
    udpWorkerSurvivesErrors n = true := by
  refine ⟨by cases c <;> rfl, ?_, ?_, rfl, rfl, udpWorkerSurvivesErrors_true n⟩
  · unfold l2WriteStep
    by_cases h : 100 < n + 1 <;> simp [h]
  · unfold l2WriteStep
    by_cases h : 100 < n + 1 <;> simp [h]

theorem lookupIface_setIfaceTarget_self :
    ∀ (l : List (String × InterfaceThroughput)) (key : String) (mbps : ℚ)
      (it : InterfaceThroughput), lookupIface l key = some it →
      lookupIface (setIfaceTarget l key mbps) key = some { it with targetThroughput := mbps }
  | [], key, mbps, it, h => by simp [lookupIface] at h
  | (k, v) :: rest, key, mbps, it, h => by
    by_cases hk : k = key
    · subst hk
      simp only [lookupIface, if_pos rfl] at h
      injection h with h
      subst h
      simp [setIfaceTarget, lookupIface]
    · simp only [lookupIface, if_neg hk] at h
      simp only [setIfaceTarget, if_neg hk, lookupIface, if_neg hk]
      exact lookupIface_setIfaceTarget_self rest key mbps it h

theorem lookupIface_setIfaceTarget_other :
    ∀ (l : List (String × InterfaceThroughput)) (key k : String) (mbps : ℚ), k ≠ key →
      lookupIface (setIfaceTarget l key mbps) k = lookupIface l k
  | [], _, _, _, _ => rfl
  | (k0, v) :: rest, key, k, mbps, hk => by
    by_cases hk0 : k0 = key
    · subst hk0
      simp only [setIfaceTarget, if_pos rfl, lookupIface]
      rw [if_neg (fun h => hk h.symm), if_neg (fun h => hk h.symm)]
    · simp only [setIfaceTarget, if_neg hk0, lookupIface]
      by_cases hkk : k0 = k
      · rw [if_pos hkk, if_pos hkk]
      · rw [if_neg hkk, if_neg hkk]
        exact lookupIface_setIfaceTarget_other rest key k mbps hk

/-- C10: SetInterfaceTargetThroughput with an unregistered name (after
defaulting the empty name) is a no-op; with a registered name it changes
only that interface's targetThroughput, leaves every other field of its
meter and every other interface's meter untouched, and leaves the
generator's own fields untouched. -/
theorem setInterfaceTarget_frame (g : NetworkLoadGenerator) (n : String) (mbps : ℚ) :
    (lookupIface g.interfaceThroughputs (canonName n) = none →
       SetInterfaceTargetThroughput g n mbps = g) ∧
    (∀ it, lookupIface g.interfaceThroughputs (canonName n) = some it →
       (SetInterfaceTargetThroughput g n mbps).bytesSent = g.bytesSent ∧
       (SetInterfaceTargetThroughput g n mbps).lastUpdate = g.lastUpdate ∧
       (SetInterfaceTargetThroughput g n mbps).throughput = g.throughput ∧
       (SetInterfaceTargetThroughput g n mbps).targetThroughput = g.targetThroughput ∧
       (SetInterfaceTargetThroughput g n mbps).numWorkers = g.numWorkers ∧
       lookupIface (SetInterfaceTargetThroughput g n mbps).interfaceThroughputs (canonName n)
         = some { it with targetThroughput := mbps } ∧
       ∀ k, k ≠ canonName n →
         lookupIface (SetInterfaceTargetThroughput g n mbps).interfaceThroughputs k
           = lookupIface g.interfaceThroughputs k) := by
  constructor
  · intro h
    simp only [SetInterfaceTargetThroughput, h]
  · intro it h
    simp only [SetInterfaceTargetThroughput, h]
    refine ⟨by trivial, by trivial, by trivial, by trivial, by trivial, ?_, ?_⟩
    · exact lookupIface_setIfaceTarget_self g.interfaceThroughputs (canonName n) mbps it h
    · intro k hk
      exact lookupIface_setIfaceTarget_other g.interfaceThroughputs (canonName n) k mbps hk

/-- C10 witness: the concrete generator's "eth0" target is rewritten to
250 Mbps while numWorkers stays put. -/
theorem setInterfaceTarget_frame_witness :
    lookupIface genSample.interfaceThroughputs (canonName "eth0") = some itSample ∧
    lookupIface (SetInterfaceTargetThroughput genSample "eth0" 250).interfaceThroughputs
        (canonName "eth0") = some { itSample with targetThroughput := 250 } ∧
    (SetInterfaceTargetThroughput genSample "eth0" 250).numWorkers = genSample.numWorkers :=
  ⟨rfl, ((setInterfaceTarget_frame genSample "eth0" 250).2 itSample rfl).2.2.2.2.2.1,
    ((setInterfaceTarget_frame genSample "eth0" 250).2 itSample rfl).2.2.2.2.1⟩

/-- C2: for a registered interface and positive packet size, the
per-packet delay of getWorkerDelayForInterface equals the
specification's rate formula: 0 when the active target or the worker
count is non-positive; otherwise, with rawDelay = 1 s / ((target ×
125000 / workers) / packetSize), 0 when rawDelay is below 10 µs and
0.95 × rawDelay (truncated to nanoseconds) otherwise. -/
theorem getWorkerDelay_matches_claim (g : NetworkLoadGenerator) (packetSize : Int)
    (ifaceName : String) (it : InterfaceThroughput)
    (hlook : lookupIface g.interfaceThroughputs (canonName ifaceName) = some it)
    (hps : 0 < packetSize) :
    getWorkerDelayForInterface g packetSize ifaceName
      = claimedDelayForInterface it.targetThroughput it.workers packetSize := by
  have hpq : (0 : ℚ) < (packetSize : ℚ) := by exact_mod_cast hps
  simp only [getWorkerDelayForInterface, claimedDelayForInterface, hlook]
  by_cases hz : it.targetThroughput ≤ 0 ∨ it.workers ≤ 0
  · rw [if_pos hz, if_pos hz]
  · rw [if_neg hz, if_neg hz]
    push_neg at hz
    obtain ⟨ht, hw⟩ := hz
    have hwq : (0 : ℚ) < (it.workers : ℚ) := by exact_mod_cast hw
    have key : it.targetThroughput * 1000000 / 8 / (it.workers : ℚ) / (packetSize : ℚ)
        = it.targetThroughput * 125000 / (it.workers : ℚ) / (packetSize : ℚ) := by ring
    rw [key]
    have hbps : ¬ (it.targetThroughput * 1000000 / 8 / (it.workers : ℚ) ≤ 0) := by
      push_neg
      positivity
    rw [if_neg hbps]
    have hpps : ¬ (it.targetThroughput * 125000 / (it.workers : ℚ) / (packetSize : ℚ) ≤ 0) := by
      push_neg
      positivity
    rw [if_neg hpps]
    by_cases hd : ⌊(1000000000 : ℚ) /
        (it.targetThroughput * 125000 / (it.workers : ℚ) / (packetSize : ℚ))⌋ < 10000
    · rw [if_pos hd, if_pos hd]
    · rw [if_neg hd, if_neg hd]
      have h1 : (10000 : ℤ) ≤ ⌊(1000000000 : ℚ) /
          (it.targetThroughput * 125000 / (it.workers : ℚ) / (packetSize : ℚ))⌋ := not_lt.mp hd
      have h2 : (1000 : ℤ) ≤ ⌊((⌊(1000000000 : ℚ) /
          (it.targetThroughput * 125000 / (it.workers : ℚ) / (packetSize : ℚ))⌋ : ℚ) * (95 / 100))⌋ := by
        apply Int.le_floor.mpr
        have h1q : (10000 : ℚ) ≤ (⌊(1000000000 : ℚ) /
            (it.targetThroughput * 125000 / (it.workers : ℚ) / (packetSize : ℚ))⌋ : ℚ) := by
          exact_mod_cast h1
        push_cast
        linarith
      rw [if_neg (not_lt.mpr h2)]

/-- C2 witness: the concrete generator (100 Mbps target, 10 workers) at
packet size 1400. -/
theorem getWorkerDelay_matches_claim_witness :
    lookupIface genSample.interfaceThroughputs (canonName "eth0") = some itSample ∧
    (0 : Int) < 1400 ∧
    getWorkerDelayForInterface genSample 1400 "eth0"
      = claimedDelayForInterface itSample.targetThroughput itSample.workers 1400 :=
  ⟨rfl, by decide, getWorkerDelay_matches_claim genSample 1400 "eth0" itSample rfl (by decide)⟩

/-- C6: for an interface with rampSteps = N > 0 and targetThroughput =
T > 0, the sequence of published active targets (the registration value
followed by each ramp step's value) is non-decreasing, starts at 0, ends
at T, and takes only values k × (T/N) with 0 ≤ k ≤ N. -/
theorem ramp_targets_monotone (ic : InterfaceConfig)
    (hN : 0 < ic.rampSteps) (hT : 0 < ic.targetThroughput) :
    List.Chain' (· ≤ ·) (publishedTargetSeq ic) ∧
    (publishedTargetSeq ic).head? = some 0 ∧
    (publishedTargetSeq ic).getLast? = some ic.targetThroughput ∧
    ∀ v ∈ publishedTargetSeq ic, ∃ k : ℕ, k ≤ ic.rampSteps.toNat ∧
      v = ic.targetThroughput / (ic.rampSteps : ℚ) * k := by
  have hNq : (0 : ℚ) < (ic.rampSteps : ℚ) := by exact_mod_cast hN
  have hq : 0 ≤ ic.targetThroughput / (ic.rampSteps : ℚ) := le_of_lt (div_pos hT hNq)
  have hinit : initialInterfaceTarget ic = 0 := by
    rw [initialInterfaceTarget, if_pos ⟨hN, hT⟩]
  have hseq : publishedTargetSeq ic
      = (List.range (ic.rampSteps.toNat + 1)).map (fun k => rampStepTarget ic k) := by
    rw [publishedTargetSeq, List.range_succ_eq_map ic.rampSteps.toNat, List.map_cons,
      List.map_map, hinit]
    congr 1
    simp [rampStepTarget]
  refine ⟨?_, ?_, ?_, ?_⟩
  · rw [hseq, List.chain'_map]
    apply (List.chain'_range_succ _ _).mpr
    intro m hm
    rw [rampStepTarget, rampStepTarget]
    apply mul_le_mul_of_nonneg_left _ hq
    exact_mod_cast Nat.le_succ m
  · rw [hseq, List.range_succ_eq_map, List.map_cons]
    simp [rampStepTarget]
  · rw [hseq, List.range_succ]
    simp only [List.map_append, List.map_singleton, List.getLast?_concat]
    have hcast : ((ic.rampSteps.toNat : ℕ) : ℚ) = (ic.rampSteps : ℚ) := by
      exact_mod_cast Int.toNat_of_nonneg hN.le
    rw [rampStepTarget, hcast, div_mul_cancel₀ _ (ne_of_gt hNq)]
  · intro v hv
    rw [hseq] at hv
    obtain ⟨k, hk, rfl⟩ := List.mem_map.mp hv
    exact ⟨k, Nat.lt_succ_iff.mp (List.mem_range.mp hk), rfl⟩

/-- C6 witness: the concrete ramped interface (4 steps to 400 Mbps)
publishes a monotone sequence starting at 0 and ending at 400. -/
theorem ramp_targets_monotone_witness :
    (0 : Int) < icRampSample.rampSteps ∧ (0 : ℚ) < icRampSample.targetThroughput ∧
    List.Chain' (· ≤ ·) (publishedTargetSeq icRampSample) ∧
    (publishedTargetSeq icRampSample).head? = some 0 ∧
    (publishedTargetSeq icRampSample).getLast? = some icRampSample.targetThroughput := by
  have h := ramp_targets_monotone icRampSample (by decide) (by norm_num [icRampSample])
  exact ⟨by decide, by norm_num [icRampSample], h.1, h.2.1, h.2.2.1⟩

theorem map_id_of_eq {α : Type _} (f : α → α) :
    ∀ (l : List α), (∀ x ∈ l, f x = x) → l.map f = l
  | [], _ => rfl
  | x :: xs, h => by
    rw [List.map_cons, h x (List.mem_cons_self x xs),
      map_id_of_eq f xs (fun y hy => h y (List.mem_cons_of_mem x hy))]

theorem any_phase_false : ∀ (l : List RunGoroutine), allFinished l → ∀ (t : Nat) (p : RunPhase),
    p ≠ RunPhase.finished →
    (l.any fun r => decide (r.token = t) && decide (r.phase = p)) = false
  | [], _, _, _, _ => rfl
  | r :: rest, hl, t, p, hp => by
    have hr := hl r (List.mem_cons_self r rest)
    have hrest : allFinished rest := fun x hx => hl x (List.mem_cons_of_mem r hx)
    have hp' : RunPhase.finished ≠ p := fun h => hp h.symm
    rw [List.any_cons, any_phase_false rest hrest t p hp]
    simp [hr, hp']

theorem filter_running_eq_nil : ∀ {l : List RunGoroutine}, allFinished l →
    (l.filter fun r => decide (r.phase = RunPhase.running)) = []
  | [], _ => rfl
  | r :: rest, h => by
    have hr := h r (List.mem_cons_self r rest)
    have hrest : allFinished rest := fun x hx => h x (List.mem_cons_of_mem r hx)
    rw [List.filter_cons]
    simp [hr, filter_running_eq_nil hrest]

theorem hasRunAt_append_single (l : List RunGoroutine) (hl : allFinished l)
    (last : RunGoroutine) (t : Nat) (p : RunPhase) (hp : p ≠ RunPhase.finished)
    (s : ServerState) (hruns : s.runs = l ++ [last]) :
    hasRunAt s t p = (decide (last.token = t) && decide (last.phase = p)) := by
  unfold hasRunAt
  rw [hruns, List.any_append, any_phase_false l hl t p hp]
  simp [List.any_cons]

theorem advanceRun_append_single (l : List RunGoroutine) (hl : allFinished l)
    (last : RunGoroutine) (t : Nat) (p q : RunPhase) (hp : p ≠ RunPhase.finished) :
    advanceRun (l ++ [last]) t p q
      = l ++ [if last.token = t ∧ last.phase = p then { last with phase := q } else last] := by
  unfold advanceRun
  rw [List.map_append]
  congr 1
  apply map_id_of_eq
  intro r hr
  rw [if_neg]
  intro hc
  exact hp (hc.2.symm.trans (hl r hr))

theorem serverInv_step {s : ServerState} (hs : ServerInv s) (a : ServerAct)
    (ha : a ≠ ServerAct.stopReq) : ServerInv (serverStep s a).1 := by
  cases a with
  | stopReq => exact absurd rfl ha
  | startReq =>
    rcases hs with ⟨hf, hc, hta⟩ | ⟨l, last, hruns, hl, hlast, hc, hta⟩
    · simp only [serverStep, hc]
      right
      refine ⟨s.runs, _, rfl, hf, by simp, rfl, ?_⟩
      rw [hta]
      simp
    · simp only [serverStep, hc]
      exact Or.inr ⟨l, last, hruns, hl, hlast, hc, hta⟩
  | enterRun t =>
    rcases hs with ⟨hf, hc, hta⟩ | ⟨l, last, hruns, hl, hlast, hc, hta⟩
    · have hany : hasRunAt s t RunPhase.entering = false := by
        unfold hasRunAt
        exact any_phase_false s.runs hf t RunPhase.entering (by decide)
      simp [serverStep, hany]
      exact Or.inl ⟨hf, hc, hta⟩
    · have hany := hasRunAt_append_single l hl last t RunPhase.entering (by decide) s hruns
      by_cases hcond : last.token = t ∧ last.phase = RunPhase.entering
      · have hany' : hasRunAt s t RunPhase.entering = true := by
          rw [hany]
          simp [hcond.1, hcond.2]
        have hadv : advanceRun s.runs t RunPhase.entering RunPhase.running
            = l ++ [{ last with phase := RunPhase.running }] := by
          rw [hruns, advanceRun_append_single l hl last t _ _ (by decide), if_pos hcond]
        simp [serverStep, hany']
        right
        exact ⟨l, { last with phase := RunPhase.running }, hadv, hl,
          (by decide : RunPhase.running ≠ RunPhase.finished), hc, by simp⟩
      · have hany' : hasRunAt s t RunPhase.entering = false := by
          rw [hany]
          rcases not_and_or.mp hcond with h1 | h1 <;> simp [h1]
        simp [serverStep, hany']
        exact Or.inr ⟨l, last, hruns, hl, hlast, hc, hta⟩
  | finishRun t =>
    rcases hs with ⟨hf, hc, hta⟩ | ⟨l, last, hruns, hl, hlast, hc, hta⟩
    · have hany : hasRunAt s t RunPhase.running = false := by
        unfold hasRunAt
        exact any_phase_false s.runs hf t RunPhase.running (by decide)
      simp [serverStep, hany]
      exact Or.inl ⟨hf, hc, hta⟩
    · have hany := hasRunAt_append_single l hl last t RunPhase.running (by decide) s hruns
      by_cases hcond : last.token = t ∧ last.phase = RunPhase.running
      · have hany' : hasRunAt s t RunPhase.running = true := by
          rw [hany]
          simp [hcond.1, hcond.2]
        have hadv : advanceRun s.runs t RunPhase.running RunPhase.cleanedUp
            = l ++ [{ last with phase := RunPhase.cleanedUp }] := by
          rw [hruns, advanceRun_append_single l hl last t _ _ (by decide), if_pos hcond]
        simp [serverStep, hany']
        right
        exact ⟨l, { last with phase := RunPhase.cleanedUp }, hadv, hl,
          (by decide : RunPhase.cleanedUp ≠ RunPhase.finished), hc, by simp⟩
      · have hany' : hasRunAt s t RunPhase.running = false := by
          rw [hany]
          rcases not_and_or.mp hcond with h1 | h1 <;> simp [h1]
        simp [serverStep, hany']
        exact Or.inr ⟨l, last, hruns, hl, hlast, hc, hta⟩
  | exitRun t =>
    rcases hs with ⟨hf, hc, hta⟩ | ⟨l, last, hruns, hl, hlast, hc, hta⟩
    · have hany : hasRunAt s t RunPhase.cleanedUp = false := by
        unfold hasRunAt
        exact any_phase_false s.runs hf t RunPhase.cleanedUp (by decide)
      simp [serverStep, hany]
      exact Or.inl ⟨hf, hc, hta⟩
    · have hany := hasRunAt_append_single l hl last t RunPhase.cleanedUp (by decide) s hruns
      by_cases hcond : last.token = t ∧ last.phase = RunPhase.cleanedUp
      · have hany' : hasRunAt s t RunPhase.cleanedUp = true := by
          rw [hany]
          simp [hcond.1, hcond.2]
        have hadv : advanceRun s.runs t RunPhase.cleanedUp RunPhase.finished
            = l ++ [{ last with phase := RunPhase.finished }] := by
          rw [hruns, advanceRun_append_single l hl last t _ _ (by decide), if_pos hcond]
        simp [serverStep, hany']
        left
        refine ⟨?_, rfl, ?_⟩
        · rw [hadv]
          intro r hr
          rcases List.mem_append.mp hr with hmem | hmem
          · exact hl r hmem
          · rw [List.mem_singleton] at hmem
            rw [hmem]
        · cases hb : s.testActive
          · rfl
          · exfalso
            have hrun := hta.mp hb
            rw [hcond.2] at hrun
            exact absurd hrun (by decide)
      · have hany' : hasRunAt s t RunPhase.cleanedUp = false := by
          rw [hany]
          rcases not_and_or.mp hcond with h1 | h1 <;> simp [h1]
        simp [serverStep, hany']
        exact Or.inr ⟨l, last, hruns, hl, hlast, hc, hta⟩

theorem serverInv_exec : ∀ (tr : List ServerAct) (s : ServerState), ServerInv s →
    ServerAct.stopReq ∉ tr → ServerInv (serverExec s tr)
  | [], _, hs, _ => hs
  | a :: tr, s, hs, h => by
    have ha : a ≠ ServerAct.stopReq := by
      intro he
      exact h (by rw [← he]; exact List.mem_cons_self a tr)
    have htr : ServerAct.stopReq ∉ tr := fun hm => h (List.mem_cons_of_mem a hm)
    rw [serverExec, List.foldl_cons]
    exact serverInv_exec tr _ (serverInv_step hs a ha) htr

theorem runningCount_le_one_of_inv {s : ServerState} (hs : ServerInv s) :
    runningCount s ≤ 1 := by
  rcases hs with ⟨hf, _, _⟩ | ⟨l, last, hruns, hl, _, _, _⟩
  · unfold runningCount
    rw [filter_running_eq_nil hf]
    simp
  · unfold runningCount
    rw [hruns, List.filter_append, filter_running_eq_nil hl]
    by_cases hb : last.phase = RunPhase.running <;> simp [List.filter_cons, hb]

theorem rejected_of_active_inv {s : ServerState} (hs : ServerInv s)
    (h : s.testActive = true) : (serverStep s ServerAct.startReq).2 = some false := by
  rcases hs with ⟨_, _, hta⟩ | ⟨l, last, _, _, _, hc, _⟩
  · rw [hta] at h
    cases h
  · simp [serverStep, hc]

theorem inactive_after_done_inv {s : ServerState} (hs : ServerInv s) (t : Nat)
    (h : s.doneSignals < (serverStep s (ServerAct.exitRun t)).1.doneSignals) :
    (serverStep s (ServerAct.exitRun t)).1.testActive = false := by
  by_cases hg : hasRunAt s t RunPhase.cleanedUp = true
  · have hta : s.testActive = false := by
      rcases hs with ⟨hf, _, _⟩ | ⟨l, last, hruns, hl, hlast, hc, hta0⟩
      · exfalso
        have hfalse := any_phase_false s.runs hf t RunPhase.cleanedUp (by decide)
        unfold hasRunAt at hg
        rw [hfalse] at hg
        cases hg
      · have hany := hasRunAt_append_single l hl last t RunPhase.cleanedUp (by decide) s hruns
        rw [hany] at hg
        simp only [Bool.and_eq_true, decide_eq_true_eq] at hg
        cases hb : s.testActive
        · rfl
        · exfalso
          have hrun := hta0.mp hb
          rw [hg.2] at hrun
          exact absurd hrun (by decide)
    simp [serverStep, hg, hta]
  · exfalso
    have hg' : hasRunAt s t RunPhase.cleanedUp = false := by
      cases hb : hasRunAt s t RunPhase.cleanedUp
      · rfl
      · exact absurd hb hg
    simp [serverStep, hg'] at h

/-- C1 counterexample for the claim as stated: with the interleaving
start, RunTest entry, stop, the runner's testActive (the value behind
isActive) is still true because the cancelled run has not yet unwound,
yet the server's cancel handle is already nil, so the next startTest is
accepted (reply some true); letting that second run enter RunTest yields
two goroutines inside RunTest at once. -/
theorem startTest_accepted_while_active_cex :
    (serverExec initialServerState
        [ServerAct.startReq, ServerAct.enterRun 0, ServerAct.stopReq]).testActive = true ∧
    (serverStep (serverExec initialServerState
        [ServerAct.startReq, ServerAct.enterRun 0, ServerAct.stopReq])
        ServerAct.startReq).2 = some true ∧
    runningCount (serverExec initialServerState
        [ServerAct.startReq, ServerAct.enterRun 0, ServerAct.stopReq,
         ServerAct.startReq, ServerAct.enterRun 1]) = 2 := by decide

/-- C1 amended: startTest is rejected exactly while the server's cancel
handle is set, which coincides with isActive only in the absence of
stopTest.  In every execution that never invokes stopTest: at most one
goroutine is inside RunTest at any time, any startTest issued while
isActive() is true is rejected, and immediately after the terminal done
signal of a run is broadcast, isActive() is false.  (stopTest clears the
cancel handle while the cancelled run is still unwinding, which is
exactly the window the counterexample exploits.) -/
theorem single_active_run_stopfree (tr : List ServerAct)
    (h : ServerAct.stopReq ∉ tr) :
    runningCount (serverExec initialServerState tr) ≤ 1 ∧
    ((serverExec initialServerState tr).testActive = true →
      (serverStep (serverExec initialServerState tr) ServerAct.startReq).2 = some false) ∧
    ∀ t : Nat,
      (serverExec initialServerState tr).doneSignals
          < (serverStep (serverExec initialServerState tr) (ServerAct.exitRun t)).1.doneSignals →
      (serverStep (serverExec initialServerState tr) (ServerAct.exitRun t)).1.testActive = false := by
  have hinv : ServerInv (serverExec initialServerState tr) :=
    serverInv_exec tr initialServerState
      (Or.inl ⟨fun r hr => absurd hr (List.not_mem_nil r), rfl, rfl⟩) h
  exact ⟨runningCount_le_one_of_inv hinv, fun ht => rejected_of_active_inv hinv ht,
    fun t ht => inactive_after_done_inv hinv t ht⟩

/-- C1 witness: a complete stop-free run (start, enter, finish, exit)
satisfies the amended properties. -/
theorem single_active_run_stopfree_witness :
    ServerAct.stopReq ∉
      [ServerAct.startReq, ServerAct.enterRun 0, ServerAct.finishRun 0, ServerAct.exitRun 0] ∧
    runningCount (serverExec initialServerState
      [ServerAct.startReq, ServerAct.enterRun 0, ServerAct.finishRun 0, ServerAct.exitRun 0]) ≤ 1 :=
  ⟨by decide,
    (single_active_run_stopfree
      [ServerAct.startReq, ServerAct.enterRun 0, ServerAct.finishRun 0, ServerAct.exitRun 0]
      (by decide)).1⟩
